import Mathlib

/-!
# Verification of the Nanometa Live report→{Sankey, path-table} transform

Shallow embedding of the data-refresh engine of `nanometa_live`
(`nanometa_live/nanometa_gui.py`).  The callbacks `update_qc_text`,
`update_waiting_files` and the table-completion loop of `pathogen_update`
are translated directly from that file.  The helper modules imported from
`nanometa_live.gui_scripts` (`kreport2_df`, `domain_filtering`,
`get_result_matrix`, `create_edges`, `filter_by_top`, `format_sankey`,
`icicle_sunburst_data`, `sankey_placeholder`) are not part of this source
tree; the corresponding definitions below are modelled from the
specification's component design (ReportParser, HierarchyIndexer,
DomainFilter, EdgeBuilder, TopNSelector, PathBuilder, LayoutFormatter)
and are marked as such in their doc comments.
-/

/-- Taxonomic rank codes of a kreport row (spec §3): Domain, Kingdom,
Phylum, Class, Order, Family, Genus, Species, Unclassified, Root, Other. -/
inductive RankCode where
  | D | K | P | C | O | F | G | S | U | R | X
deriving DecidableEq

/-- One row of the classification report (spec §3, §6): columns are
percent, reads_cumulative, reads_assigned, rank_code, tax_id, name,
with depth decoded from the name's indentation.  The float percent
column is modelled as a rational. -/
structure TaxonRecord where
  percent : ℚ
  reads_cumulative : Nat
  reads_assigned : Nat
  rank : RankCode
  tax_id : Nat
  name : String
  depth : Nat
deriving DecidableEq

/-- A node of the reconstructed taxonomic tree (spec §3): a stable id in
traversal order, the underlying record, an optional parent id, and the
memoized name of the Domain-rank node on its (inclusive) ancestor chain. -/
structure Node where
  id : Nat
  record : TaxonRecord
  parent_id : Option Nat
  domain : Option String
deriving DecidableEq

/-- Modelled from the spec: one step of the HierarchyIndexer stack walk
(§4.2).  State is (stack of (depth, id, domain), nodes so far, next id).
For a row at depth d the stack is popped while its top has depth ≥ d;
the new node's parent is the new stack top. -/
def indexer_step (st : List (Nat × Nat × Option String) × List Node × Nat)
    (r : TaxonRecord) : List (Nat × Nat × Option String) × List Node × Nat :=
  let stack := st.1.dropWhile (fun p => decide (r.depth ≤ p.1))
  let parent := stack.head?
  let dom : Option String :=
    if r.rank = RankCode.D then some r.name
    else match parent with
         | some p => p.2.2
         | none => none
  let node : Node := ⟨st.2.2, r, parent.map (fun p => p.2.1), dom⟩
  ((r.depth, st.2.2, dom) :: stack, st.2.1 ++ [node], st.2.2 + 1)

/-- Modelled from the spec: HierarchyIndexer (§4.2).  Walks the records
in order, producing a forest with ids assigned sequentially in traversal
order (the numbering done by the missing `get_result_matrix`). -/
def hierarchyIndexer (rows : List TaxonRecord) : List Node :=
  (rows.foldl indexer_step ([], [], 0)).2.1

/-- Modelled from the spec: DomainFilter (§4.3), standing in for the
missing `domain_filtering` helper.  A node survives iff its ancestor
chain never passes through a Domain-rank node outside the allowed set;
the chain's domain is memoized per node by the indexer. -/
def domainFilter (S : List String) (T : List Node) : List Node :=
  T.filter (fun n =>
    match n.domain with
    | none => true
    | some d => decide (d ∈ S))

/-- DomainFilter is idempotent for any allow-set and its output is a
sublist of the input table (preserving the original id ordering). -/
theorem domainFilter_idem_sublist (S : List String) (T : List Node) :
    domainFilter S (domainFilter S T) = domainFilter S T ∧
      (domainFilter S T).Sublist T := by
  constructor
  · unfold domainFilter
    rw [List.filter_filter]
    congr 1
    funext n
    cases n.domain <;> simp
  · exact List.filter_sublist T

/-- Split a character list at every occurrence of a separator. -/
def splitListOn (sep : Char) (cs : List Char) : List (List Char) :=
  cs.foldr
    (fun c acc =>
      match acc with
      | [] => if c = sep then [[], []] else [[c]]
      | cur :: rest =>
        if c = sep then [] :: cur :: rest else (c :: cur) :: rest)
    [[]]

/-- Value of a decimal digit character, if it is one. -/
def digitVal? (c : Char) : Option Nat :=
  if '0' ≤ c ∧ c ≤ '9' then some (c.toNat - 48) else none

/-- Modelled from the spec: numeric-field parsing of the ReportParser
(§4.1) — a non-empty run of decimal digits; anything else is
non-numeric and fails. -/
def parseNatChars (cs : List Char) : Option Nat :=
  if cs.isEmpty then none
  else
    cs.foldl
      (fun acc c =>
        match acc, digitVal? c with
        | some a, some d => some (a * 10 + d)
        | _, _ => none)
      (some 0)

/-- Modelled from the spec: rank-code parsing of the ReportParser (§4.1,
§6) — part of the missing `kreport2_df`.  A rank code is a 1–3 character
string; known leading letters map to their rank, other short codes to
Other, anything else is unparsable. -/
def parseRankCode (cs : List Char) : Option RankCode :=
  if cs.length = 0 ∨ 3 < cs.length then none
  else match cs.head? with
    | some 'D' => some RankCode.D
    | some 'K' => some RankCode.K
    | some 'P' => some RankCode.P
    | some 'C' => some RankCode.C
    | some 'O' => some RankCode.O
    | some 'F' => some RankCode.F
    | some 'G' => some RankCode.G
    | some 'S' => some RankCode.S
    | some 'U' => some RankCode.U
    | some 'R' => some RankCode.R
    | some _ => some RankCode.X
    | none => none

/-- Modelled from the spec: decimal-literal parsing for the float percent
column (§4.1), as a rational.  Fails on non-numeric input. -/
def parseDecimal (cs : List Char) : Option ℚ :=
  match splitListOn '.' cs with
  | [w] => (parseNatChars w).map (fun n => (n : ℚ))
  | [w, f] =>
    match parseNatChars w, parseNatChars f with
    | some wn, some fn =>
      some ((wn : ℚ) + (fn : ℚ) / ((10 : ℚ) ^ f.length))
    | _, _ => none
  | _ => none

/-- Modelled from the spec: parsing of one report row (§4.1, §6) — part
of the missing `kreport2_df`.  Tab-separated fields percent,
reads_cumulative, reads_assigned, rank_code, tax_id, name; the name's
leading whitespace encodes depth at a fixed indent unit of two spaces.
Fails with a ParseError on non-numeric numeric fields or an unparsable
rank code. -/
def parseLine (line : List Char) : Except String TaxonRecord :=
  match splitListOn '\t' line with
  | [p, cum, asg, rk, tid, nm] =>
    match parseDecimal p, parseNatChars cum, parseNatChars asg,
        parseRankCode rk, parseNatChars tid with
    | some pv, some cv, some av, some rkv, some tv =>
      let indent := (nm.takeWhile (fun c => c = ' ')).length
      Except.ok
        { percent := pv, reads_cumulative := cv, reads_assigned := av,
          rank := rkv, tax_id := tv,
          name := String.mk (nm.dropWhile (fun c => c = ' ')),
          depth := indent / 2 }
    | _, _, _, _, _ => Except.error "ParseError"
  | _ => Except.error "ParseError"

/-- Modelled from the spec: ReportParser (§4.1), standing in for the
missing `kreport2_df`.  Full report text to an ordered sequence of
records, in file order; any malformed row fails the whole parse. -/
def parseReport (text : String) : Except String (List TaxonRecord) :=
  ((splitListOn '\n' text.data).filter (fun l => decide (l ≠ []))).mapM
    parseLine

/-- A rank-compressed Sankey edge (spec §3): source and target are
indices into the label list, value is the target's reads_assigned, and
`rank` records the target's rank letter (the column it lives in). -/
structure Edge where
  source : Nat
  target : Nat
  value : Nat
  rank : RankCode
deriving DecidableEq

/-- Modelled from the spec: ancestor walk of the EdgeBuilder (§4.4).
Starting from table index `j`, follows parent pointers until a node
whose rank is in the selected set is met; if none is, the walk ends at
the tree root, which acts as the edge's fallback endpoint (as in the
spec's worked example, §8).  Fuel bounds the recursion. -/
def effParentAux (T : List Node) (letters : List RankCode) :
    Nat → Nat → Nat
  | 0, j => j
  | fuel + 1, j =>
    match T.get? j with
    | none => j
    | some nj =>
      if nj.record.rank ∈ letters then j
      else match nj.parent_id with
           | none => j
           | some k => effParentAux T letters fuel k

/-- Modelled from the spec: effective parent of a node (§4.4) — the
nearest strict ancestor whose rank is selected, or the tree root when no
such ancestor exists; `none` for a root node itself. -/
def effParent (T : List Node) (letters : List RankCode) (n : Node) :
    Option Nat :=
  n.parent_id.map (effParentAux T letters T.length)

/-- Position of the node with table id `j` inside the pruned table
(Sankey ids are re-assigned after domain filtering, as done by the
missing `get_result_matrix`). -/
def posOf (Tf : List Node) (j : Nat) : Nat :=
  Tf.findIdx (fun n => decide (n.id = j))

/-- Modelled from the spec: EdgeBuilder (§4.4), standing in for the
missing `create_edges`.  One edge per surviving node whose own rank is
selected; weight is the node's reads_assigned; endpoints are positions
in the pruned table `Tf` (ancestors are chased through the full indexed
table `T`). -/
def createEdges (T Tf : List Node) (letters : List RankCode) :
    List Edge :=
  Tf.filterMap (fun n =>
    if n.record.rank ∈ letters then
      (effParent T letters n).map (fun j =>
        ⟨posOf Tf j, posOf Tf n.id, n.record.reads_assigned, n.record.rank⟩)
    else none)

/-- Ordering used by the TopNSelector inside a column (spec §4.5):
reads_assigned descending, ties broken by ascending node id. -/
def edgeRel (a b : Edge) : Prop :=
  b.value < a.value ∨ (a.value = b.value ∧ a.target ≤ b.target)

instance : DecidableRel edgeRel := fun a b => by
  unfold edgeRel; infer_instance

instance : IsTotal Edge edgeRel :=
  ⟨by intro a b; unfold edgeRel; omega⟩

instance : IsTrans Edge edgeRel :=
  ⟨by intro a b c hab hbc; unfold edgeRel at hab hbc ⊢; omega⟩

/-- The edges of one rank-level column. -/
def columnEdges (edges : List Edge) (r : RankCode) : List Edge :=
  edges.filter (fun e => decide (e.rank = r))

/-- Modelled from the spec: per-column top-K selection of the
TopNSelector (§4.5), standing in for the missing `filter_by_top`:
sort the column's edges by reads descending with ties broken by
ascending node id, and keep only the first K. -/
def selectColumn (K : Nat) (edges : List Edge) (r : RankCode) :
    List Edge :=
  (List.insertionSort edgeRel (columnEdges edges r)).take K

/-- Widths of all columns after top-K selection. -/
def columnWidths (K : Nat) (edges : List Edge) (letters : List RankCode) :
    List Nat :=
  letters.map (fun r => (selectColumn K edges r).length)

/-- Maximum column width across all columns (spec §4.5). -/
def maxColumnWidth (K : Nat) (edges : List Edge)
    (letters : List RankCode) : Nat :=
  (columnWidths K edges letters).foldr max 0

/-- Modelled from the spec: number of ghost nodes appended by the
TopNSelector (§4.5) — every narrower column is padded with zero-weight
"none" nodes up to the maximum column width. -/
def ghost_nodes (K : Nat) (edges : List Edge) (letters : List RankCode) :
    Nat :=
  ((columnWidths K edges letters).map
    (fun w => maxColumnWidth K edges letters - w)).sum

/-- Modelled from the spec: the selected edges of all columns, in
rank-letter order (§4.5). -/
def topN (K : Nat) (edges : List Edge) (letters : List RankCode) :
    List Edge :=
  (letters.map (selectColumn K edges)).flatten

/-- The Sankey output shape (spec §4.7): ordered labels, parallel link
arrays indexed into the labels, and a pass-through pad constant. -/
structure SankeyData where
  labels : List String
  source : List Nat
  target : List Nat
  value : List Nat
  pad : Nat
deriving DecidableEq

/-- Modelled from the spec: LayoutFormatter for the Sankey shape (§4.7),
standing in for the missing `format_sankey` — a pure projection of the
selected edges. -/
def format_sankey (edges : List Edge) (label : List String) (pad : Nat) :
    SankeyData :=
  ⟨label, edges.map Edge.source, edges.map Edge.target,
    edges.map Edge.value, pad⟩

/-- Modelled from the spec: the empty placeholder Sankey result returned
while no report exists (§7 MissingFileError), standing in for the
missing `sankey_placeholder`. -/
def sankey_placeholder : SankeyData := ⟨[], [], [], [], 30⟩

/-- The reordering of the selected edge table applied between top-K
selection and formatting: `top_df = top_df.sort_values('target',
ascending=False)` (nanometa_gui.py line 161), a stable sort by target
node id descending. -/
def sortByTargetDesc (edges : List Edge) : List Edge :=
  List.insertionSort (fun a b => b.target ≤ a.target) edges

/-- The Sankey half of the refresh (`create_sankey_data`,
nanometa_gui.py lines 114–171): domain filtering, indexing,
rank-compressed edge building, per-column top-K selection with ghost
padding, the target-descending reordering of line 161, and formatting.
The stage functions live in the missing `gui_scripts` modules and are
modelled from the spec above; the sort is present in the source. -/
def create_sankey_data (rows : List TaxonRecord) (selected_domains : List String)
    (clade_list : List RankCode) (top_filter : Nat) : SankeyData :=
  let T := hierarchyIndexer rows
  let Tf := domainFilter selected_domains T
  let edges := createEdges T Tf clade_list
  let top := sortByTargetDesc (topN top_filter edges clade_list)
  let ghosts := ghost_nodes top_filter edges clade_list
  let label := Tf.map (fun n => n.record.name) ++ List.replicate ghosts "none"
  format_sankey top label 30

/-- The refresh entry point modelled after `create_sankey_data`
(nanometa_gui.py lines 122–134) together with the error-handling design
of spec §5/§7: when the report file does not exist yet the placeholder
is returned (src lines 125–127); when parsing fails the refresh keeps
the previous good result (spec §5 — the failure branch lives in the
missing `kreport2_df`). -/
def refresh (fileExists : Bool) (text : String) (prev : SankeyData)
    (S : List String) (letters : List RankCode) (K : Nat) : SankeyData :=
  if fileExists = false then sankey_placeholder
  else
    match parseReport text with
    | Except.error _ => prev
    | Except.ok rows => create_sankey_data rows S letters K

/-- One row of the icicle/sunburst path table (spec §3, §4.6). -/
structure PathRow where
  taxon : String
  parent : String
  reads : Nat
deriving DecidableEq

/-- Strict ancestor indices of table entry `j`, chased through parent
pointers with fuel. -/
def ancChain (T : List Node) : Nat → Nat → List Nat
  | 0, _ => []
  | fuel + 1, j =>
    match T.get? j with
    | none => []
    | some nj =>
      match nj.parent_id with
      | none => []
      | some k => k :: ancChain T fuel k

/-- Modelled from the spec: PathBuilder retention (§4.6), standing in
for the missing `icicle_sunburst_data`.  A node is retained iff its own
reads_assigned meets the threshold or it lies on the ancestor chain of
a node that does. -/
def retained (T : List Node) (t : Nat) (n : Node) : Bool :=
  decide (t ≤ n.record.reads_assigned) ||
    T.any (fun m =>
      decide (t ≤ m.record.reads_assigned) &&
        (ancChain T T.length m.id).contains n.id)

/-- Modelled from the spec: PathBuilder label disambiguation (§4.6) —
when two retained nodes share a name the node id is suffixed onto the
label. -/
def pathLabel (kept : List Node) (n : Node) : String :=
  if kept.any (fun m =>
      decide (m.id ≠ n.id) && decide (m.record.name = n.record.name))
  then n.record.name ++ toString n.id
  else n.record.name

/-- Parent label of a path row: the empty-string sentinel for a root,
otherwise the (disambiguated) label of the parent node. -/
def pathParentLabel (T kept : List Node) (n : Node) : String :=
  match n.parent_id with
  | none => ""
  | some j =>
    match T.find? (fun m => decide (m.id = j)) with
    | none => ""
    | some p => pathLabel kept p

/-- A retained node's output row (spec §4.6). -/
def mkPathRow (T kept : List Node) (n : Node) : PathRow :=
  ⟨pathLabel kept n, pathParentLabel T kept n, n.record.reads_assigned⟩

/-- Modelled from the spec: PathBuilder (§4.6), standing in for the
missing `icicle_sunburst_data`.  One global minimum-reads threshold; the
output is the flat table of rows of all retained nodes. -/
def path_rows (T : List Node) (t : Nat) : List PathRow :=
  let kept := T.filter (retained T t)
  kept.map (mkPathRow T kept)

/-- The complete refresh transform (spec §2): report text to node table,
Sankey data and path table, under fixed filter settings. -/
structure RefreshResult where
  nodes : List Node
  sankey : SankeyData
  paths : List PathRow
deriving DecidableEq

/-- The full report→{graph, paths} transform of one refresh: parse,
index, then build both outputs (spec §2 data flow). -/
def full_transform (text : String) (S : List String)
    (letters : List RankCode) (K t : Nat) :
    Except String RefreshResult :=
  match parseReport text with
  | Except.error e => Except.error e
  | Except.ok rows =>
    let T := hierarchyIndexer rows
    Except.ok ⟨T, create_sankey_data rows S letters K,
      path_rows (domainFilter S T) t⟩

/-- The spec's worked three-row example tree (§8): root, Bacteria under
it, E.coli under Bacteria. -/
def exampleRows : List TaxonRecord :=
  [⟨0, 100, 20, RankCode.R, 1, "root", 0⟩,
   ⟨0, 80, 10, RankCode.D, 2, "Bacteria", 1⟩,
   ⟨0, 80, 80, RankCode.G, 562, "E.coli", 2⟩]

/-- C1 counterexample: on the three-row example tree with allowed
domains {Bacteria}, selected rank letters {D, G} and top-K 5, the
pipeline does not emit the link arrays in the claimed ascending order
[0, 1]/[1, 2]/[10, 80] — the target-descending sort of
nanometa_gui.py line 161 reverses them before formatting. -/
theorem sankey_pipeline_example_refuted :
    create_sankey_data exampleRows ["Bacteria"] [RankCode.D, RankCode.G] 5 ≠
      ⟨["root", "Bacteria", "E.coli"], [0, 1], [1, 2], [10, 80], 30⟩ := by
  decide

/-- C1 (amended): on the three-row example tree with allowed domains
{Bacteria}, selected rank letters {D, G} and top-K 5, the full Sankey
pipeline produces labels ["root", "Bacteria", "E.coli"] and the same
two links in target-descending order: source [1, 0], target [2, 1],
value [80, 10]. -/
theorem sankey_pipeline_example :
    create_sankey_data exampleRows ["Bacteria"] [RankCode.D, RankCode.G] 5 =
      ⟨["root", "Bacteria", "E.coli"], [1, 0], [2, 1], [80, 10], 30⟩ := by
  decide

/-- C2: a refresh against a missing report file returns the well-formed
empty placeholder, and a refresh whose parse fails returns the previous
good result unchanged. -/
theorem refresh_graceful (text : String) (prev : SankeyData)
    (S : List String) (letters : List RankCode) (K : Nat) :
    (refresh false text prev S letters K = sankey_placeholder ∧
      sankey_placeholder.labels = [] ∧
      sankey_placeholder.source.length = sankey_placeholder.target.length ∧
      sankey_placeholder.target.length = sankey_placeholder.value.length) ∧
    ∀ e, parseReport text = Except.error e →
      refresh true text prev S letters K = prev := by
  refine ⟨⟨rfl, rfl, rfl, rfl⟩, ?_⟩
  intro e he
  simp [refresh, he]

theorem refresh_graceful_witness :
    refresh true "x" sankey_placeholder ["Bacteria"] [RankCode.D] 5 =
      sankey_placeholder :=
  (refresh_graceful "x" sankey_placeholder ["Bacteria"] [RankCode.D] 5).2
    "ParseError" (by rfl)

/-- C5: the full transform is a deterministic function of the report
text — two runs on identical input text under the same filter settings
yield identical node tables, Sankey data and path tables. -/
theorem transform_deterministic (t1 t2 : String) (S : List String)
    (letters : List RankCode) (K t : Nat) (h : t1 = t2) :
    full_transform t1 S letters K t = full_transform t2 S letters K t := by
  rw [h]

theorem transform_deterministic_witness :
    full_transform "A" ["Bacteria"] [RankCode.D] 5 10 =
      full_transform "A" ["Bacteria"] [RankCode.D] 5 10 :=
  transform_deterministic "A" "A" ["Bacteria"] [RankCode.D] 5 10 rfl

/-- C3: with threshold 0 the path builder emits a row for every node of
the pruned tree, and with a threshold strictly above every node's
reads_assigned it emits the empty table. -/
theorem path_builder_threshold (T : List Node) (t : Nat) :
    path_rows T 0 = T.map (mkPathRow T T) ∧
      ((∀ n ∈ T, n.record.reads_assigned < t) → path_rows T t = []) := by
  constructor
  · unfold path_rows
    have h : T.filter (retained T 0) = T := by
      apply List.filter_eq_self.mpr
      intro n _
      simp [retained]
    rw [h]
  · intro h
    unfold path_rows
    have h2 : T.filter (retained T t) = [] := by
      apply List.filter_eq_nil_iff.mpr
      intro n hn
      have hn' := h n hn
      simp only [retained, Bool.or_eq_true, decide_eq_true_eq, List.any_eq_true,
        Bool.and_eq_true, not_or]
      constructor
      · omega
      · rintro ⟨m, hm, hmt, -⟩
        have := h m hm
        omega
    rw [h2]
    rfl

theorem path_builder_threshold_witness :
    path_rows (hierarchyIndexer exampleRows) 0 =
        (hierarchyIndexer exampleRows).map
          (mkPathRow (hierarchyIndexer exampleRows)
            (hierarchyIndexer exampleRows)) ∧
      path_rows (hierarchyIndexer exampleRows) 1000 = [] :=
  ⟨(path_builder_threshold (hierarchyIndexer exampleRows) 1000).1,
   (path_builder_threshold (hierarchyIndexer exampleRows) 1000).2
     (by decide)⟩

lemma mem_le_foldr_max (l : List Nat) (x : Nat) (hx : x ∈ l) :
    x ≤ l.foldr max 0 := by
  induction l with
  | nil => cases hx
  | cons a l ih =>
    rcases List.mem_cons.mp hx with h | h
    · subst h; exact le_max_left _ _
    · exact le_trans (ih h) (le_max_right _ _)

/-- C4: the TopNSelector keeps at most K real edges per column, every
column width is bounded by the maximum column width, padding each column
with its ghost-node deficit brings every column exactly to that maximum,
and the reported ghost-node count is the sum of those deficits. -/
theorem topn_selector_bounds (K : Nat) (edges : List Edge)
    (letters : List RankCode) :
    (∀ r ∈ letters, (selectColumn K edges r).length ≤ K) ∧
    (∀ r ∈ letters,
      (selectColumn K edges r).length ≤ maxColumnWidth K edges letters) ∧
    (∀ r ∈ letters,
      (selectColumn K edges r).length +
          (maxColumnWidth K edges letters -
            (selectColumn K edges r).length) =
        maxColumnWidth K edges letters) ∧
    ghost_nodes K edges letters =
      ((columnWidths K edges letters).map
        (fun w => maxColumnWidth K edges letters - w)).sum := by
  have hle : ∀ r ∈ letters,
      (selectColumn K edges r).length ≤ maxColumnWidth K edges letters := by
    intro r hr
    apply mem_le_foldr_max
    exact List.mem_map_of_mem _ hr
  refine ⟨?_, hle, ?_, rfl⟩
  · intro r hr
    unfold selectColumn
    simp [List.length_take_le]
  · intro r hr
    have := hle r hr
    omega

theorem topn_selector_bounds_witness :
    (selectColumn 1 [⟨0, 1, 5, RankCode.D⟩, ⟨0, 2, 7, RankCode.D⟩]
        RankCode.D).length ≤ 1 ∧
      (selectColumn 1 [⟨0, 1, 5, RankCode.D⟩, ⟨0, 2, 7, RankCode.D⟩]
            RankCode.D).length +
          (maxColumnWidth 1 [⟨0, 1, 5, RankCode.D⟩, ⟨0, 2, 7, RankCode.D⟩]
              [RankCode.D, RankCode.G] -
            (selectColumn 1 [⟨0, 1, 5, RankCode.D⟩, ⟨0, 2, 7, RankCode.D⟩]
                RankCode.D).length) =
        maxColumnWidth 1 [⟨0, 1, 5, RankCode.D⟩, ⟨0, 2, 7, RankCode.D⟩]
          [RankCode.D, RankCode.G] :=
  ⟨(topn_selector_bounds 1 _ [RankCode.D, RankCode.G]).1 RankCode.D
     (List.mem_cons_self _ _),
   (topn_selector_bounds 1 _ [RankCode.D, RankCode.G]).2.2.1 RankCode.D
     (List.mem_cons_self _ _)⟩

lemma selectColumn_pairwise (K : Nat) (edges : List Edge) (r : RankCode) :
    (selectColumn K edges r).Pairwise edgeRel := by
  unfold selectColumn
  exact List.Pairwise.sublist (List.take_sublist _ _)
    (List.sorted_insertionSort edgeRel (columnEdges edges r))

/-- C7: in the edge list emitted by the TopNSelector for a column, two
edges that tie on reads are ordered by ascending node id, and the
ordering is stable across runs on equal inputs. -/
theorem topn_tie_ascending_id (edges : List Edge) (r : RankCode)
    (K i j : Nat) (hij : i < j)
    (hi : i < (selectColumn K edges r).length)
    (hj : j < (selectColumn K edges r).length)
    (hnd : (selectColumn K edges r).Pairwise
      (fun a b => a.target ≠ b.target))
    (hv : ((selectColumn K edges r).get ⟨i, hi⟩).value =
      ((selectColumn K edges r).get ⟨j, hj⟩).value) :
    ((selectColumn K edges r).get ⟨i, hi⟩).target <
        ((selectColumn K edges r).get ⟨j, hj⟩).target ∧
      ∀ edges2, edges2 = edges →
        selectColumn K edges2 r = selectColumn K edges r := by
  constructor
  · have hp := selectColumn_pairwise K edges r
    have hrel := List.pairwise_iff_get.mp hp ⟨i, hi⟩ ⟨j, hj⟩ hij
    have hne := List.pairwise_iff_get.mp hnd ⟨i, hi⟩ ⟨j, hj⟩ hij
    unfold edgeRel at hrel
    omega
  · intro edges2 he
    rw [he]

theorem topn_tie_ascending_id_witness :
    ((selectColumn 5 [⟨0, 1, 5, RankCode.D⟩, ⟨0, 2, 5, RankCode.D⟩]
          RankCode.D).get ⟨0, by decide⟩).target <
      ((selectColumn 5 [⟨0, 1, 5, RankCode.D⟩, ⟨0, 2, 5, RankCode.D⟩]
          RankCode.D).get ⟨1, by decide⟩).target :=
  (topn_tie_ascending_id
    [⟨0, 1, 5, RankCode.D⟩, ⟨0, 2, 5, RankCode.D⟩] RankCode.D 5 0 1
    (by decide) (by decide) (by decide) (by decide) (by decide)).1

lemma indexer_foldl_mem (rows : List TaxonRecord) :
    ∀ st acc k, ∀ n ∈ (rows.foldl indexer_step (st, acc, k)).2.1,
      n ∈ acc ∨ n.record ∈ rows := by
  induction rows with
  | nil => intro st acc k n hn; exact Or.inl hn
  | cons r rows ih =>
    intro st acc k n hn
    rw [List.foldl_cons] at hn
    rcases ih (indexer_step (st, acc, k) r).1 (indexer_step (st, acc, k) r).2.1
        (indexer_step (st, acc, k) r).2.2 n hn with h | h
    · simp only [indexer_step] at h
      rcases List.mem_append.mp h with h2 | h2
      · exact Or.inl h2
      · rw [List.mem_singleton.mp h2]
        exact Or.inr (List.mem_cons_self _ _)
    · exact Or.inr (List.mem_cons_of_mem _ h)

/-- Every node produced by the HierarchyIndexer carries a record of the
input row list: the indexer fabricates no rows. -/
lemma hierarchyIndexer_mem (rows : List TaxonRecord) :
    ∀ n ∈ hierarchyIndexer rows, n.record ∈ rows := by
  intro n hn
  rcases indexer_foldl_mem rows [] [] 0 n hn with h | h
  · cases h
  · exact h

/-- The side-channel totals record (spec §3, §6): classified and
unclassified read counts and percentages from the two reserved rows. -/
structure Totals where
  classified : Nat
  unclassified : Nat
  total : Nat
  pc : ℚ
  pu : ℚ
deriving DecidableEq

/-- Rounding to one decimal place, as Python's `round(x, 1)` on the
percent columns (floats modelled as rationals). -/
def round1 (q : ℚ) : ℚ := ((round (10 * q) : ℤ) : ℚ) / 10

/-- The totals computed by the `update_qc_text` callback
(nanometa_gui.py lines 1457–1466): classified reads and percent from
row 1 (the root/classified reserved row), unclassified from row 0,
total their sum.  The callback's string assembly and qc-file fields are
display only and omitted. -/
def update_qc_text (rows : List TaxonRecord) (h : 2 ≤ rows.length) :
    Totals :=
  let c := (rows.get ⟨1, h⟩).reads_cumulative
  let u := (rows.get ⟨0, lt_of_lt_of_le (by omega) h⟩).reads_cumulative
  { classified := c, unclassified := u, total := c + u,
    pc := round1 (rows.get ⟨1, h⟩).percent,
    pu := round1 (rows.get ⟨0, lt_of_lt_of_le (by omega) h⟩).percent }

/-- C8: the totals record takes the unclassified count and percentage
from row 0 and the classified count and percentage from row 1, total
reads is their sum, and the taxonomic tree of the refresh is built from
the remaining rows only — no node of it carries a reserved row. -/
theorem reserved_summary_rows (r0 r1 : TaxonRecord)
    (rest : List TaxonRecord) :
    (update_qc_text (r0 :: r1 :: rest)
          (by simp only [List.length_cons]; omega)).total =
        (update_qc_text (r0 :: r1 :: rest)
            (by simp only [List.length_cons]; omega)).classified +
          (update_qc_text (r0 :: r1 :: rest)
              (by simp only [List.length_cons]; omega)).unclassified ∧
      (update_qc_text (r0 :: r1 :: rest)
          (by simp only [List.length_cons]; omega)).classified =
        r1.reads_cumulative ∧
      (update_qc_text (r0 :: r1 :: rest)
          (by simp only [List.length_cons]; omega)).unclassified =
        r0.reads_cumulative ∧
      (update_qc_text (r0 :: r1 :: rest)
          (by simp only [List.length_cons]; omega)).pc = round1 r1.percent ∧
      (update_qc_text (r0 :: r1 :: rest)
          (by simp only [List.length_cons]; omega)).pu = round1 r0.percent ∧
      ∀ n ∈ hierarchyIndexer ((r0 :: r1 :: rest).drop 2),
        n.record ∈ rest :=
  ⟨rfl, rfl, rfl, rfl, rfl, fun n hn => hierarchyIndexer_mem rest n hn⟩

/-- Reserved unclassified row used by the C8 witness. -/
def qcRowU : TaxonRecord := ⟨20, 30, 30, RankCode.U, 0, "unclassified", 0⟩

/-- Reserved root/classified row used by the C8 witness. -/
def qcRowR : TaxonRecord := ⟨80, 120, 0, RankCode.R, 1, "root", 0⟩

/-- Tree row used by the C8 witness. -/
def qcRowD : TaxonRecord := ⟨50, 80, 80, RankCode.D, 2, "Bacteria", 1⟩

theorem reserved_summary_rows_witness :
    (update_qc_text [qcRowU, qcRowR, qcRowD]
          (by simp only [List.length_cons]; omega)).total = 150 ∧
      (⟨0, qcRowD, none, some "Bacteria"⟩ : Node).record ∈ [qcRowD] := by
  have h := reserved_summary_rows qcRowU qcRowR [qcRowD]
  refine ⟨?_, h.2.2.2.2.2 _ (by decide)⟩
  rw [h.1, h.2.1, h.2.2.1]
  rfl

/-- One row of the pathogen table.  The first three columns are Name,
Tax ID and Reads; the final two mirror the extra columns of the
dataframe row appended by `pathogen_update` (a percent and a
log10(Reads) column). -/
structure PathogenRow where
  name : String
  taxId : Nat
  reads : Nat
  percent : ℚ
  log10Reads : Nat
deriving DecidableEq

/-- The row appended for a configured tax ID that is absent from the
classification data: ['not found in DB', entry, 0, 0.0, 0]
(nanometa_gui.py lines 1314–1318). -/
def nfRow (entry : Nat) : PathogenRow := ⟨"not found in DB", entry, 0, 0, 0⟩

/-- One iteration of the completion loop of the `pathogen_update`
callback (nanometa_gui.py lines 1310–1318): append the 'not found'
row unless the tax ID already occurs in the Tax ID column. -/
def pathogen_step (acc : List PathogenRow) (entry : Nat) :
    List PathogenRow :=
  if acc.any (fun row => decide (row.taxId = entry)) then acc
  else acc ++ [nfRow entry]

/-- The completion loop of the `pathogen_update` callback
(nanometa_gui.py lines 1310–1318) over the configured species list. -/
def pathogen_update (pathogen_list : List Nat)
    (pathogen_info : List PathogenRow) : List PathogenRow :=
  pathogen_list.foldl pathogen_step pathogen_info

lemma pathogen_update_mono (plist : List Nat) :
    ∀ acc row, row ∈ acc → row ∈ pathogen_update plist acc := by
  induction plist with
  | nil => exact fun acc row h => h
  | cons e plist ih =>
    intro acc row h
    rw [pathogen_update, List.foldl_cons]
    refine ih (pathogen_step acc e) row ?_
    unfold pathogen_step
    split
    · exact h
    · exact List.mem_append_left _ h

lemma pathogen_update_covers (plist : List Nat) :
    ∀ acc e, e ∈ plist →
      ∃ row ∈ pathogen_update plist acc, row.taxId = e := by
  induction plist with
  | nil => intro acc e h; cases h
  | cons a plist ih =>
    intro acc e h
    rw [pathogen_update, List.foldl_cons]
    rcases List.mem_cons.mp h with rfl | h
    · have hstep : ∃ row ∈ pathogen_step acc e, row.taxId = e := by
        by_cases h1 : acc.any (fun row => decide (row.taxId = e)) = true
        · rcases List.any_eq_true.mp h1 with ⟨row, hrow, he⟩
          refine ⟨row, ?_, of_decide_eq_true he⟩
          unfold pathogen_step
          rw [if_pos h1]
          exact hrow
        · refine ⟨nfRow e, ?_, rfl⟩
          unfold pathogen_step
          rw [if_neg h1]
          exact List.mem_append_right _ (List.mem_singleton_self _)
      rcases hstep with ⟨row, hrow, he⟩
      exact ⟨row, pathogen_update_mono plist _ row hrow, he⟩
    · exact ih _ e h

lemma pathogen_update_origin (plist : List Nat) :
    ∀ acc row, row ∈ pathogen_update plist acc →
      row ∈ acc ∨ row = nfRow row.taxId := by
  induction plist with
  | nil => intro acc row h; exact Or.inl h
  | cons e plist ih =>
    intro acc row h
    rw [pathogen_update, List.foldl_cons] at h
    rcases ih _ row h with h2 | h2
    · unfold pathogen_step at h2
      rcases (by
          by_cases h1 : acc.any (fun row => decide (row.taxId = e)) = true
          · rw [if_pos h1] at h2; exact Or.inl h2
          · rw [if_neg h1] at h2; exact List.mem_append.mp h2 :
          row ∈ acc ∨ row ∈ [nfRow e]) with h3 | h3
      · exact Or.inl h3
      · rw [List.mem_singleton.mp h3]
        exact Or.inr rfl
    · exact Or.inr h2

/-- C9: the pathogen table produced by the completion loop of
`pathogen_update` contains a row for every configured tax ID, and any
configured tax ID absent from the classification data gets the row
('not found in DB', tax ID, 0 reads). -/
theorem pathogen_update_complete (pathogen_list : List Nat)
    (pathogen_info : List PathogenRow) :
    (∀ e ∈ pathogen_list,
      ∃ row ∈ pathogen_update pathogen_list pathogen_info,
        row.taxId = e) ∧
    ∀ e ∈ pathogen_list,
      (∀ row ∈ pathogen_info, row.taxId ≠ e) →
        nfRow e ∈ pathogen_update pathogen_list pathogen_info := by
  constructor
  · intro e he
    exact pathogen_update_covers pathogen_list pathogen_info e he
  · intro e he habs
    rcases pathogen_update_covers pathogen_list pathogen_info e he with
      ⟨row, hrow, hid⟩
    rcases pathogen_update_origin pathogen_list pathogen_info row hrow with
      h | h
    · exact absurd hid (habs row h)
    · rw [hid] at h
      rw [← h]
      exact hrow

theorem pathogen_update_complete_witness :
    nfRow 666 ∈ pathogen_update [666] [] :=
  (pathogen_update_complete [666] []).2 666 (List.mem_singleton_self _)
    (fun row h => absurd h (List.not_mem_nil row))

/-- Number of processed files derived from the qc table
(nanometa_gui.py lines 1513–1518): 0 when the table is the placeholder
(first cell '0.0'), otherwise its row count. -/
def files_processed (qcFirstCell : String) (qcRows : Nat) : Nat :=
  if qcFirstCell = "0.0" then 0 else qcRows

/-- The `update_waiting_files` callback (nanometa_gui.py lines
1507–1531): when the nanopore directory exists, the waiting count is the
directory's file count minus the processed-file count with negative
values set to 0, plus the two display messages; without the directory
the messages carry no numbers. -/
def update_waiting_files (dirIsDir : Bool) (numFiles : Nat)
    (qcFirstCell : String) (qcRows : Nat) : String × String :=
  if dirIsDir then
    let fp := files_processed qcFirstCell qcRows
    let delta : Int := (numFiles : Int) - (fp : Int)
    let delta2 := if delta < 0 then 0 else delta
    ("Files awaiting processing: " ++ toString delta2,
     "Files processed: " ++ toString fp)
  else
    ("Files awaiting processing: ", "Files processed: ")

/-- C10: the reported waiting count equals the directory file count
minus the processed count clamped below at zero, and that value is never
negative. -/
theorem waiting_files_clamped (numFiles qcRows : Nat)
    (qcFirstCell : String) :
    (update_waiting_files true numFiles qcFirstCell qcRows).1 =
        "Files awaiting processing: " ++
          toString (max ((numFiles : Int) -
            (files_processed qcFirstCell qcRows : Int)) 0) ∧
      0 ≤ max ((numFiles : Int) -
        (files_processed qcFirstCell qcRows : Int)) 0 := by
  have hmax : ∀ d : Int, (if d < 0 then (0 : Int) else d) = max d 0 := by
    intro d
    rcases lt_or_le d 0 with h | h
    · rw [if_pos h, max_eq_right h.le]
    · rw [if_neg (not_lt.mpr h), max_eq_left h]
  refine ⟨?_, le_max_right _ _⟩
  show "Files awaiting processing: " ++
      toString (if ((numFiles : Int) -
        (files_processed qcFirstCell qcRows : Int)) < 0 then (0 : Int)
        else (numFiles : Int) - (files_processed qcFirstCell qcRows : Int)) =
    "Files awaiting processing: " ++
      toString (max ((numFiles : Int) -
        (files_processed qcFirstCell qcRows : Int)) 0)
  rw [hmax]
